import Mathlib

/-!
# Verification of `list_branches.py`

A shallow embedding of the branch-listing tool in `src/list_branches.py`.
The tool fetches branch names, PR statuses, ahead/behind comparisons and
(optionally) ancestry information from an external `gh` command, joins them
into rows, filters, sorts and renders a table.

The external `gh` process is modelled by an `Env` record holding the data the
successful calls would return (per-branch raw responses are `Option String`,
with `none` standing for a raised exception).  Every pure function of the
script is translated one-to-one; `main` is translated into a function that
also returns the ordered list of fetch events it performed, so that temporal
claims about fetch ordering can be stated.
-/

namespace ListBranches

/-- An ahead/behind cell: a non-negative commit count (per the data model and
the GitHub compare API, `ahead_by`/`behind_by` are non-negative), or the
unknown marker `"?"` that `get_comparison` substitutes on any failure. -/
inductive AB
  | known (n : Nat)
  | unknown
deriving DecidableEq, Repr

/-- A row dict built by `build_rows`: fields branch, pr, ahead, behind, ours.
`ours = none` models Python `None` (ancestry absent). -/
structure Row where
  branch : String
  pr : String
  ahead : AB
  behind : AB
  ours : Option Bool
deriving DecidableEq, Repr

/-- The Python values that can appear in a row field or as an intermediate in
`field_val`: ints, strings (including the marker `"?"`), `float("inf")`,
booleans and `None`. -/
inductive Val
  | vInt (i : Int)
  | vStr (s : String)
  | vInf
  | vBool (b : Bool)
  | vNone
deriving DecidableEq, Repr

/-- `SORT_FIELDS` from the script. -/
def SORT_FIELDS : List String := ["branch", "pr", "ahead", "behind", "ours"]

/-- Python `str.strip()` on the character list: drop whitespace from both
ends. -/
def stripChars (cs : List Char) : List Char :=
  ((cs.dropWhile Char.isWhitespace).reverse.dropWhile Char.isWhitespace).reverse

/-- Python `str.strip()`. -/
def pyStrip (s : String) : String := ⟨stripChars s.data⟩

/-- Python `needle in hay` on strings: substring containment. -/
def pyIn (needle hay : String) : Bool := decide (needle.data <:+: hay.data)

/-- Python `s.split()` (no argument) on the character list: split on
whitespace runs, discarding empty pieces. -/
def splitWsChars : List Char → List Char → List (List Char)
  | [], acc => if acc = [] then [] else [acc.reverse]
  | c :: cs, acc =>
    if c.isWhitespace then
      (if acc = [] then splitWsChars cs [] else acc.reverse :: splitWsChars cs [])
    else splitWsChars cs (c :: acc)

/-- Python `s.split()` (no argument). -/
def pySplitWs (s : String) : List String :=
  (splitWsChars s.data []).map fun cs => ⟨cs⟩

/-- Python `s.split(",")` on the character list: cut at every comma, keeping
empty segments (`"".split(",") == [""]`). -/
def splitCommaChars : List Char → List Char → List (List Char)
  | [], acc => [acc.reverse]
  | c :: cs, acc =>
    if c = ',' then acc.reverse :: splitCommaChars cs []
    else splitCommaChars cs (c :: acc)

/-- Python `s.split(",")`. -/
def pySplitComma (s : String) : List String :=
  (splitCommaChars s.data []).map fun cs => ⟨cs⟩

/-- The check `parse_sort` applies to one already-stripped part: read the
leading `-` marking descending (`part.startswith("-")`), drop it
(`part[1:]`), and check the field against `SORT_FIELDS` (unknown fields
raise `ValueError`). -/
def parse_field (part : String) : Except String (String × Bool) :=
  let desc : Bool := match part.data with | c :: _ => c = '-' | [] => false
  let field : String := ⟨if desc then part.data.tail else part.data⟩
  if field ∈ SORT_FIELDS then .ok (field, desc)
  else .error ("Unknown sort field: " ++ field)

/-- `parse_sort`, acting on one comma-separated part: `part.strip()` first,
then the prefix/field check. -/
def parse_token (part : String) : Except String (String × Bool) :=
  parse_field (pyStrip part)

/-- `parse_sort`'s loop over the comma-separated parts: `result.append` on
success, the `ValueError` of the first bad part otherwise. -/
def parse_sort_list : List String → Except String (List (String × Bool))
  | [] => .ok []
  | p :: ps =>
    match parse_token p with
    | .error e => .error e
    | .ok fd =>
      match parse_sort_list ps with
      | .error e => .error e
      | .ok rest => .ok (fd :: rest)

/-- `parse_sort`: split the spec on commas and parse each part, propagating
the first `ValueError`. -/
def parse_sort (s : String) : Except String (List (String × Bool)) :=
  parse_sort_list (pySplitComma s)

/-- `parse_sort_list` with the per-part `strip()` removed, for stating that
stripping happens before the field check. -/
def parse_fields_list : List String → Except String (List (String × Bool))
  | [] => .ok []
  | p :: ps =>
    match parse_field p with
    | .error e => .error e
    | .ok fd =>
      match parse_fields_list ps with
      | .error e => .error e
      | .ok rest => .ok (fd :: rest)

/-- `row[field]` in `sort_key`: the dynamically-typed field access. Fields
outside `SORT_FIELDS` never reach here (`parse_sort` guards), so the final
catch-all is unreachable. -/
def rowVal (row : Row) (field : String) : Val :=
  if field = "branch" then .vStr row.branch
  else if field = "pr" then .vStr row.pr
  else if field = "ahead" then
    match row.ahead with | .known n => .vInt n | .unknown => .vStr "?"
  else if field = "behind" then
    match row.behind with | .known n => .vInt n | .unknown => .vStr "?"
  else if field = "ours" then
    match row.ours with | some b => .vBool b | none => .vNone
  else .vNone

/-- Python `isinstance(val, int)`.  Note Python `bool` is a subclass of
`int`, so booleans count. -/
def isIntVal : Val → Bool
  | .vInt _ => true
  | .vBool _ => true
  | _ => false

/-- A sort-key component produced by `field_val`: a plain int, `float("inf")`,
a pair `(tag, value)`, or `None` (the last only through the unreachable
catch-alls, kept for totality). -/
inductive Key
  | int (i : Int)
  | inf
  | tup (t : Nat) (v : Val)
  | noneKey
deriving DecidableEq, Repr

/-- Used where Python would return the value itself as the key. -/
def keyOfVal : Val → Key
  | .vInt i => .int i
  | .vInf => .inf
  | .vBool b => .int (if b then 1 else 0)
  | .vNone => .noneKey
  | .vStr s => .tup 0 (.vStr s)

/-- `field_val` inside `make_sort_key`'s `sort_key`: per-field key with the
ahead/behind unknown substitution (`-1` when descending, `+inf` when
ascending), the ours rank `{True: 2, False: 1, None: 0}` negated when
descending, and for the remaining fields negation of ints when descending or
the `(1, val)` / `(0, val)` tuple wraps. -/
def field_val (row : Row) (field : String) (desc : Bool) : Key :=
  let val := rowVal row field
  let val := if (field = "ahead" ∨ field = "behind") ∧ isIntVal val = false
             then (if desc then Val.vInt (-1) else Val.vInf) else val
  if field = "ours" then
    let r : Int := match val with
      | .vBool true => 2
      | .vBool false => 1
      | _ => 0
    .int (if desc then -r else r)
  else if desc then
    match val with
    | .vInt i => .int (-i)
    | .vBool b => .int (-(if b then 1 else 0))
    | v => .tup 1 v
  else
    match val with
    | .vStr s => .tup 0 (.vStr s)
    | v => keyOfVal v

/-- The key tuple built by `make_sort_key`: one `field_val` per spec entry. -/
def sort_key (spec : List (String × Bool)) (row : Row) : List Key :=
  spec.map fun fd => field_val row fd.1 fd.2

def boolInt (b : Bool) : Int := if b then 1 else 0

/-- Numeric comparison (Python `<`/`==`/`>` on ints). -/
def intCmp (i j : Int) : Ordering :=
  if i < j then .lt else if i = j then .eq else .gt

/-- Numeric comparison on naturals. -/
def natCmp (m n : Nat) : Ordering :=
  if m < n then .lt else if m = n then .eq else .gt

/-- Arbitrary rank separating value categories that Python cannot compare
(such comparisons raise `TypeError` and are unreachable in this program: a
fixed field always yields mutually comparable values). -/
def valRank : Val → Nat
  | .vNone => 0
  | .vInt _ => 1
  | .vInf => 1
  | .vBool _ => 1
  | .vStr _ => 2

/-- Python comparison of two key values, as `Ordering`.  Matches Python on
every comparable pair (ints, floats and bools numerically, strings
lexicographically); incomparable pairs get the fixed `valRank` order. -/
def valCmp : Val → Val → Ordering
  | .vInt i, .vInt j => intCmp i j
  | .vStr s, .vStr t => compare s t
  | .vInt _, .vInf => .lt
  | .vInf, .vInt _ => .gt
  | .vInf, .vInf => .eq
  | .vBool a, .vBool b => intCmp (boolInt a) (boolInt b)
  | .vBool a, .vInt j => intCmp (boolInt a) j
  | .vInt i, .vBool b => intCmp i (boolInt b)
  | .vBool _, .vInf => .lt
  | .vInf, .vBool _ => .gt
  | a, b => natCmp (valRank a) (valRank b)

/-- Arbitrary rank separating key shapes Python cannot compare (unreachable:
within one sort run a fixed field always yields one key shape, up to the
int/inf mix which is comparable). -/
def keyRank : Key → Nat
  | .noneKey => 0
  | .int _ => 1
  | .inf => 1
  | .tup _ _ => 2

/-- Python comparison of two keys: numbers numerically, tuples
lexicographically; incomparable shapes by `keyRank`. -/
def keyCmp : Key → Key → Ordering
  | .int i, .int j => intCmp i j
  | .int _, .inf => .lt
  | .inf, .int _ => .gt
  | .inf, .inf => .eq
  | .tup t v, .tup t' v' =>
    match natCmp t t' with
    | .eq => valCmp v v'
    | o => o
  | a, b => natCmp (keyRank a) (keyRank b)

/-- Python tuple comparison of the key tuples (the tuples built by one
`sort_key` always have equal length, one entry per spec field). -/
def keysCmp : List Key → List Key → Ordering
  | [], [] => .eq
  | [], _ :: _ => .lt
  | _ :: _, [] => .gt
  | a :: as, b :: bs =>
    match keyCmp a b with
    | .eq => keysCmp as bs
    | o => o

/-- The `le` relation `list.sort(key=...)` sorts by: key of `r1` not greater
than key of `r2`. -/
def rowLe (spec : List (String × Bool)) (r1 r2 : Row) : Bool :=
  keysCmp (sort_key spec r1) (sort_key spec r2) ≠ .gt

/-- `rows.sort(key=make_sort_key(sort_spec))`: a stable sort by the composite
key (Python's Timsort is stable; `List.mergeSort` is the stable sort). -/
def sortRows (rows : List Row) (spec : List (String × Bool)) : List Row :=
  rows.mergeSort (rowLe spec)

/-- The data the external `gh` calls would return.  Per-branch raw responses
are `Option String`: `none` models the `gh` wrapper raising (non-zero exit),
`some s` its stripped stdout.  `prStatuses` is the already-decoded mapping of
`get_pr_statuses` (head branch name to lower-cased state), whose JSON
decoding no claim touches. -/
structure Env where
  prStatuses : List (String × String)
  branchNames : List String
  compareRaw : String → Option String
  ancestryRaw : String → Option String

/-- Python `int(token)` on a whitespace-free token, for the non-negative
counts of the compare API: all digits, base 10; anything else raises
(`none`). -/
def parseNat? (s : String) : Option Nat :=
  if s.data ≠ [] ∧ s.data.all Char.isDigit then
    some (s.data.foldl (fun n c => 10 * n + (c.toNat - '0'.toNat)) 0)
  else none

/-- The stdout parsing inside `get_comparison`: `ahead, behind = data.split()`
then `int(...)` on both; any mismatch raises (caught by the caller's
`except`). -/
def parse_compare (data : String) : Option (Nat × Nat) :=
  match pySplitWs data with
  | [a, b] =>
    match parseNat? a, parseNat? b with
    | some x, some y => some (x, y)
    | _, _ => none
  | _ => none

/-- `get_comparison` inside `get_branch_comparisons`: the compare fetch and
parse for one branch, with every exception converted to the `("?", "?")`
placeholder. -/
def get_comparison (env : Env) (branch : String) : String × AB × AB :=
  match (env.compareRaw branch).bind parse_compare with
  | some ab => (branch, .known ab.1, .known ab.2)
  | none => (branch, .unknown, .unknown)

/-- `get_branch_comparisons`: one comparison per branch (the thread pool's
`map` preserves input order when building the dict), as an insertion-ordered
association list standing for the Python dict. -/
def get_branch_comparisons (env : Env) (branch_names : List String) :
    List (String × AB × AB) :=
  branch_names.map (get_comparison env)

/-- `is_ancestor` inside `check_ancestry`: status `"ahead"` or `"identical"`
means the commit is an ancestor; any other status or a raised error gives
`false`. -/
def is_ancestor (env : Env) (branch : String) : String × Bool :=
  match env.ancestryRaw branch with
  | some status => (branch, status = "ahead" ∨ status = "identical")
  | none => (branch, false)

/-- `check_ancestry`: the per-branch ancestry map. -/
def check_ancestry (env : Env) (branch_names : List String) :
    List (String × Bool) :=
  branch_names.map (is_ancestor env)

/-- `find_main_branch`: the first of `["main", "master"]` present in the
branch list; `RuntimeError` if neither is. -/
def find_main_branch (branch_names : List String) : Except String String :=
  if "main" ∈ branch_names then .ok "main"
  else if "master" ∈ branch_names then .ok "master"
  else .error "no main branch found"

/-- `get_branch_names`: all branch names with the main branch removed.
(When the remainder is empty the Python returns an empty dict `{}` in the
list's position; both iterate as empty, modelled as `[]`.) -/
def get_branch_names (env : Env) : Except String (String × List String) := do
  let main_branch ← find_main_branch env.branchNames
  return (main_branch, env.branchNames.filter (· ≠ main_branch))

/-- The row filter guard: Python `if filter_str and filter_str not in name:
continue` keeps a row iff the filter is `None`, empty (falsy), or a substring
of the name. -/
def keepName (filter_str : Option String) (name : String) : Bool :=
  match filter_str with
  | none => true
  | some f => f = "" ∨ pyIn f name

/-- The `ours` field: Python `ancestry.get(name) if ancestry else None`
(note an empty dict is falsy). -/
def oursOf (ancestry : Option (List (String × Bool))) (name : String) :
    Option Bool :=
  match ancestry with
  | none => none
  | some anc => if anc.isEmpty then none else anc.lookup name

/-- The row dict built for one branch inside `build_rows`' loop. -/
def mkRow (pr_statuses : List (String × String))
    (ancestry : Option (List (String × Bool))) (nab : String × AB × AB) : Row :=
  { branch := nab.1
    pr := (pr_statuses.lookup nab.1).getD "-"
    ahead := nab.2.1
    behind := nab.2.2
    ours := oursOf ancestry nab.1 }

/-- `build_rows`: join comparisons, PR statuses and ancestry into rows,
skipping names rejected by the filter (the loop's `continue`); insertion
order of `branches` is kept. -/
def build_rows (branches : List (String × AB × AB))
    (pr_statuses : List (String × String))
    (ancestry : Option (List (String × Bool)))
    (filter_str : Option String) : List Row :=
  (branches.filter fun nab => keepName filter_str nab.1).map
    (mkRow pr_statuses ancestry)

/-- Rendering of an ahead/behind cell: `str(...)` of the count or `"?"`. -/
def abStr : AB → String
  | .known n => toString n
  | .unknown => "?"

/-- Rendering of the Ours cell in `print_table`. -/
def oursCell : Option Bool → String
  | some true => "[green]yes[/]"
  | some false => "[dim]no[/]"
  | none => "-"

/-- `print_table`, as data: the column headers and the cell rows (the rich
`Table` styling carries no further information). -/
def print_table (rows : List Row) (show_ours : Bool) :
    List String × List (List String) :=
  (["Branch", "PR", "Ahead", "Behind"] ++ (if show_ours then ["Ours"] else []),
   rows.map fun r =>
     [r.branch, r.pr, abStr r.ahead, abStr r.behind]
       ++ (if show_ours then [oursCell r.ours] else []))

/-- A network fetch performed by `main`, in program order. -/
inductive Event
  | fetchPRs
  | fetchBranches
  | fetchCompare (branch : String)
  | fetchAncestry (branch : String)
deriving DecidableEq, Repr

/-- What a successful run produces: the sorted rows and the printed table. -/
structure Output where
  rows : List Row
  header : List String
  cells : List (List String)
deriving DecidableEq, Repr

/-- `main` (after repo resolution, which no claim touches): fetch PR
statuses, fetch branch names and locate the main branch, fetch all
comparisons, fetch ancestry when `--since` is given, build and filter rows,
then parse the sort spec, sort, and print.  Returns the ordered list of
fetch events performed before returning or raising, alongside the result;
note `parse_sort` only runs at line 224, after every fetch. -/
def main (env : Env) (sort : String) (filter_str : Option String)
    (since : Option String) : List Event × Except String Output :=
  let evs := [Event.fetchPRs, Event.fetchBranches]
  match find_main_branch env.branchNames with
  | .error e => (evs, .error e)
  | .ok main_branch =>
    let branch_names := env.branchNames.filter (· ≠ main_branch)
    let evs := evs ++ branch_names.map Event.fetchCompare
    let branches := get_branch_comparisons env branch_names
    let evs := evs ++ (if since.isSome then branch_names.map Event.fetchAncestry else [])
    let ancestry := if since.isSome then some (check_ancestry env branch_names) else none
    let rows := build_rows branches env.prStatuses ancestry filter_str
    match parse_sort sort with
    | .error e => (evs, .error e)
    | .ok spec =>
      let sorted := sortRows rows spec
      let tbl := print_table sorted since.isSome
      (evs, .ok { rows := sorted, header := tbl.1, cells := tbl.2 })

/-! ## Auxiliary definitions for stating the claims -/

/-- The ahead or behind field of a row, selected by name. -/
def abField (r : Row) (f : String) : AB :=
  if f = "ahead" then r.ahead else r.behind

/-- The order that sorting on ahead/behind with direction `d` follows,
directly on the `AB` values: known counts by value (reversed when
descending), unknown strictly after every known count in both directions. -/
def abLeB : AB → AB → Bool → Bool
  | .known n, .known m, false => n ≤ m
  | .known n, .known m, true => m ≤ n
  | .known _, .unknown, _ => true
  | .unknown, .known _, _ => false
  | .unknown, .unknown, _ => true

/-- The rank `{True: 2, False: 1, None: 0}` used by the ours sort key. -/
def oursRank : Option Bool → Nat
  | some true => 2
  | some false => 1
  | none => 0

/-- Concrete rows used in witnesses and counterexamples. -/
def uRow1 : Row :=
  { branch := "u1", pr := "-", ahead := .unknown, behind := .unknown, ours := none }

def uRow2 : Row :=
  { branch := "u2", pr := "-", ahead := .unknown, behind := .unknown, ours := none }

def oRowT : Row :=
  { branch := "t", pr := "-", ahead := .known 0, behind := .known 0, ours := some true }

def oRowN : Row :=
  { branch := "n", pr := "-", ahead := .known 0, behind := .known 0, ours := none }

def aRow : Row :=
  { branch := "a", pr := "-", ahead := .known 1, behind := .known 0, ours := none }

def bRow : Row :=
  { branch := "b", pr := "-", ahead := .known 2, behind := .known 3, ours := none }

/-- A tiny environment: branches `main` and `x`, every compare succeeding. -/
def env0 : Env :=
  { prStatuses := []
    branchNames := ["main", "x"]
    compareRaw := fun _ => some "0 0"
    ancestryRaw := fun _ => none }

/-- An environment whose only branch is the main branch. -/
def env1 : Env :=
  { prStatuses := []
    branchNames := ["main"]
    compareRaw := fun _ => some "0 0"
    ancestryRaw := fun _ => none }

/-- An environment with neither `main` nor `master`. -/
def env2 : Env :=
  { prStatuses := []
    branchNames := ["x"]
    compareRaw := fun _ => none
    ancestryRaw := fun _ => none }

/-- The output of a run with no candidate branches and no `--since`. -/
def outEmpty : Output :=
  { rows := [], header := ["Branch", "PR", "Ahead", "Behind"], cells := [] }

/-- An environment whose compare responses are malformed. -/
def env3 : Env :=
  { prStatuses := []
    branchNames := ["main", "x"]
    compareRaw := fun _ => some "not a pair"
    ancestryRaw := fun _ => none }

/-- An environment whose ancestry responses are all `ahead`. -/
def env4 : Env :=
  { prStatuses := []
    branchNames := ["main", "x"]
    compareRaw := fun _ => some "0 0"
    ancestryRaw := fun _ => some "ahead" }

/-- The branch set of the spec's filtering example. -/
def demoBranches : List (String × AB × AB) :=
  [("feature/x", .known 1, .known 0),
   ("feature/y", .known 2, .known 1),
   ("hotfix", .known 0, .known 0)]

/-! ## Sort-key lemmas -/

lemma keysCmp_single (a b : Key) : keysCmp [a] [b] = keyCmp a b := by
  cases h : keyCmp a b <;> simp [keysCmp, h]

lemma rowLe_single (f : String) (d : Bool) (r1 r2 : Row) :
    rowLe [(f, d)] r1 r2
      = decide (keyCmp (field_val r1 f d) (field_val r2 f d) ≠ .gt) := by
  simp [rowLe, sort_key, keysCmp_single]

lemma intCmp_ne_gt (i j : Int) : (intCmp i j ≠ .gt) ↔ i ≤ j := by
  simp only [intCmp]
  split <;> rename_i h
  · simp; omega
  · split <;> rename_i h2 <;> simp <;> omega

lemma field_val_ab (r : Row) (f : String) (hf : f = "ahead" ∨ f = "behind") (d : Bool) :
    field_val r f d =
      match abField r f, d with
      | .known n, false => .int n
      | .known n, true => .int (-(n : Int))
      | .unknown, false => .inf
      | .unknown, true => .int 1 := by
  rcases hf with hf | hf <;> subst hf <;>
    rcases hab : r.ahead with n | _ <;> rcases hbb : r.behind with m | _ <;>
    cases d <;>
    simp [field_val, rowVal, abField, isIntVal, keyOfVal, hab, hbb]

lemma rowLe_ab_eq (f : String) (hf : f = "ahead" ∨ f = "behind") (d : Bool) (r1 r2 : Row) :
    rowLe [(f, d)] r1 r2 = abLeB (abField r1 f) (abField r2 f) d := by
  rw [rowLe_single, field_val_ab r1 f hf d, field_val_ab r2 f hf d]
  rcases h1 : abField r1 f with n | _ <;> rcases h2 : abField r2 f with m | _ <;> cases d <;>
    simp [abLeB, keyCmp, intCmp_ne_gt] <;> omega

lemma rowLe_ab_total (f : String) (hf : f = "ahead" ∨ f = "behind") (d : Bool) :
    ∀ a b : Row, rowLe [(f, d)] a b || rowLe [(f, d)] b a := by
  intro a b
  rw [rowLe_ab_eq f hf d, rowLe_ab_eq f hf d]
  rcases abField a f with n | _ <;> rcases abField b f with m | _ <;> cases d <;>
    simp [abLeB] <;> omega

lemma rowLe_ab_trans (f : String) (hf : f = "ahead" ∨ f = "behind") (d : Bool) :
    ∀ a b c : Row, rowLe [(f, d)] a b → rowLe [(f, d)] b c → rowLe [(f, d)] a c := by
  intro a b c hab hbc
  rw [rowLe_ab_eq f hf d] at hab hbc ⊢
  rcases h1 : abField a f with n | _ <;> rcases h2 : abField b f with m | _ <;>
    rcases h3 : abField c f with k | _ <;> cases d <;>
    rw [h1, h2] at hab <;> rw [h2, h3] at hbc <;>
    simp_all [abLeB] <;> omega

lemma rowLe_ab_unknown_known (f : String) (hf : f = "ahead" ∨ f = "behind") (d : Bool)
    (r1 r2 : Row) (h1 : abField r1 f = .unknown) (h2 : abField r2 f ≠ .unknown) :
    rowLe [(f, d)] r1 r2 = false := by
  rcases hk : abField r2 f with m | _
  · rw [rowLe_ab_eq f hf d, h1, hk]
    cases d <;> rfl
  · exact absurd hk h2

lemma field_val_ours (r : Row) (d : Bool) :
    field_val r "ours" d =
      .int (if d then -(oursRank r.ours : Int) else (oursRank r.ours : Int)) := by
  rcases ho : r.ours with _ | b
  · cases d <;> simp [field_val, rowVal, isIntVal, oursRank, ho]
  · cases b <;> cases d <;> simp [field_val, rowVal, isIntVal, oursRank, ho]

lemma rowLe_ours_eq (d : Bool) (r1 r2 : Row) :
    rowLe [("ours", d)] r1 r2 =
      if d then (oursRank r2.ours ≤ oursRank r1.ours : Bool)
      else (oursRank r1.ours ≤ oursRank r2.ours : Bool) := by
  rw [rowLe_single, field_val_ours, field_val_ours]
  cases d <;> simp [keyCmp, intCmp_ne_gt]

lemma rowLe_ours_total (d : Bool) :
    ∀ a b : Row, rowLe [("ours", d)] a b || rowLe [("ours", d)] b a := by
  intro a b
  rw [rowLe_ours_eq, rowLe_ours_eq]
  cases d <;> simp <;> omega

lemma rowLe_ours_trans (d : Bool) :
    ∀ a b c : Row, rowLe [("ours", d)] a b → rowLe [("ours", d)] b c →
      rowLe [("ours", d)] a c := by
  intro a b c hab hbc
  rw [rowLe_ours_eq] at hab hbc ⊢
  cases d <;> simp_all <;> omega

lemma rowLe_branch_desc_eq_asc :
    rowLe [("branch", true)] = rowLe [("branch", false)] := by
  funext r1 r2
  rw [rowLe_single, rowLe_single]
  simp [field_val, rowVal, isIntVal, keyOfVal, keyCmp, natCmp]

lemma get_comparison_fst (env : Env) (b : String) : (get_comparison env b).1 = b := by
  unfold get_comparison
  split <;> rfl

lemma get_branch_comparisons_keys (env : Env) (names : List String) :
    (get_branch_comparisons env names).map (fun p => p.1) = names := by
  simp [get_branch_comparisons, List.map_map, Function.comp_def, get_comparison_fst]

lemma build_rows_branch_mem (branches : List (String × AB × AB))
    (prs : List (String × String)) (anc : Option (List (String × Bool)))
    (filt : Option String) (r : Row) (hr : r ∈ build_rows branches prs anc filt) :
    r.branch ∈ branches.map (fun p => p.1) := by
  simp only [build_rows, List.mem_map, List.mem_filter] at hr
  obtain ⟨nab, ⟨hmem, _⟩, heq⟩ := hr
  exact List.mem_map.mpr ⟨nab, hmem, by rw [← heq]; rfl⟩

lemma mem_sortRows (r : Row) (rows : List Row) (spec : List (String × Bool)) :
    r ∈ sortRows rows spec ↔ r ∈ rows := List.mem_mergeSort

lemma parse_sort_list_strip (parts : List String) :
    parse_sort_list parts = parse_fields_list (parts.map pyStrip) := by
  induction parts with
  | nil => rfl
  | cons p ps ih => simp [parse_sort_list, parse_fields_list, parse_token, ih]

lemma build_rows_ours_none (branches : List (String × AB × AB))
    (prs : List (String × String)) (filt : Option String) (r : Row)
    (hr : r ∈ build_rows branches prs none filt) : r.ours = none := by
  simp only [build_rows, List.mem_map, List.mem_filter] at hr
  obtain ⟨nab, ⟨hmem, _⟩, heq⟩ := hr
  rw [← heq]
  rfl

lemma main_empty_candidates (env : Env) (h : env.branchNames = ["main"])
    (sort : String) (spec : List (String × Bool)) (hps : parse_sort sort = .ok spec)
    (filter_str since : Option String) :
    ListBranches.main env sort filter_str since =
      ([Event.fetchPRs, Event.fetchBranches],
       .ok { rows := []
             header := ["Branch", "PR", "Ahead", "Behind"]
               ++ (if since.isSome then ["Ours"] else [])
             cells := [] }) := by
  simp only [ListBranches.main, h, hps]
  have hm : find_main_branch ["main"] = .ok "main" := rfl
  rw [hm]
  have hf : ["main"].filter (· ≠ "main") = [] := rfl
  simp only [hf]
  simp [find_main_branch, get_branch_comparisons, check_ancestry, build_rows,
    sortRows, print_table]

/-! ## Claim theorems -/

/-- Claim C1: for every row list and every single-field sort on `ahead` or
`behind`, in either direction, every row carrying the unknown marker `"?"`
in that field is placed after all rows with known integer counts: in the
sorted output, a position holding an unknown value is never followed by a
known one. -/
theorem claim_C1_unknown_counts_sort_last (rows : List Row) (f : String)
    (hf : f = "ahead" ∨ f = "behind") (d : Bool) (i j : Nat)
    (hi : i < (sortRows rows [(f, d)]).length)
    (hj : j < (sortRows rows [(f, d)]).length) (hij : i < j)
    (hu : abField ((sortRows rows [(f, d)]).get ⟨i, hi⟩) f = .unknown) :
    abField ((sortRows rows [(f, d)]).get ⟨j, hj⟩) f = .unknown := by
  have hs : (sortRows rows [(f, d)]).Pairwise (fun a b => rowLe [(f, d)] a b = true) :=
    @List.sorted_mergeSort Row (rowLe [(f, d)])
      (rowLe_ab_trans f hf d) (rowLe_ab_total f hf d) rows
  have hle := (List.pairwise_iff_get.mp hs) ⟨i, hi⟩ ⟨j, hj⟩ hij
  by_contra hk
  have hfalse := rowLe_ab_unknown_known f hf d _ _ hu hk
  rw [hle] at hfalse
  exact Bool.noConfusion hfalse

/-- Witness for C1: sorting two unknown-ahead rows ascending on `ahead`
leaves an unknown row in the final position. -/
theorem claim_C1_witness :
    abField ((sortRows [uRow1, uRow2] [("ahead", false)]).get
      ⟨1, by simp [sortRows]⟩) "ahead" = AB.unknown := by
  have h0 : 0 < (sortRows [uRow1, uRow2] [("ahead", false)]).length := by simp [sortRows]
  have h1 : 1 < (sortRows [uRow1, uRow2] [("ahead", false)]).length := by simp [sortRows]
  have hu : abField ((sortRows [uRow1, uRow2] [("ahead", false)]).get ⟨0, h0⟩) "ahead"
      = AB.unknown := by
    have hm : (sortRows [uRow1, uRow2] [("ahead", false)]).get ⟨0, h0⟩ ∈ [uRow1, uRow2] :=
      List.mem_mergeSort.mp (List.get_mem _ 0 h0)
    rcases List.mem_cons.mp hm with h | h
    · rw [h]; rfl
    · rw [List.mem_singleton.mp h]; rfl
  exact claim_C1_unknown_counts_sort_last [uRow1, uRow2] "ahead" (Or.inl rfl) false 0 1
    h0 h1 (by omega) hu

/-- Claim C2 (code bug): sorting with the `-branch` spec does NOT reverse
the alphabetical order — a `(1, value)` tuple still compares by the string
ascending, so `-branch` yields exactly the ascending order on every input,
contradicting the documented `-` = descending behavior. -/
theorem claim_C2_desc_branch_not_reversed :
    sortRows [aRow, bRow] [("branch", true)] = [aRow, bRow] ∧
    aRow.branch = "a" ∧ bRow.branch = "b" ∧
    (∀ rows : List Row,
      sortRows rows [("branch", true)] = sortRows rows [("branch", false)]) := by
  refine ⟨?_, rfl, rfl, ?_⟩
  · exact List.mergeSort_of_sorted (by decide)
  · intro rows
    show List.mergeSort rows (rowLe [("branch", true)]) = _
    rw [rowLe_branch_desc_eq_asc]
    rfl

/-- Claim C8: sorting on `ours` ascending orders ranks
(`none < some false < some true`) non-decreasingly, so absent comes first
and true last; descending exactly negates the rank, so the rank sequence is
non-increasing. -/
theorem claim_C8_ours_rank_order :
    (∀ (rows : List Row) (i j : Nat)
        (hi : i < (sortRows rows [("ours", false)]).length)
        (hj : j < (sortRows rows [("ours", false)]).length), i < j →
        oursRank ((sortRows rows [("ours", false)]).get ⟨i, hi⟩).ours ≤
          oursRank ((sortRows rows [("ours", false)]).get ⟨j, hj⟩).ours) ∧
    (∀ (rows : List Row) (i j : Nat)
        (hi : i < (sortRows rows [("ours", true)]).length)
        (hj : j < (sortRows rows [("ours", true)]).length), i < j →
        oursRank ((sortRows rows [("ours", true)]).get ⟨j, hj⟩).ours ≤
          oursRank ((sortRows rows [("ours", true)]).get ⟨i, hi⟩).ours) := by
  constructor
  · intro rows i j hi hj hij
    have hs : (sortRows rows [("ours", false)]).Pairwise
        (fun a b => rowLe [("ours", false)] a b = true) :=
      List.sorted_mergeSort (rowLe_ours_trans false) (rowLe_ours_total false) rows
    have hle := (List.pairwise_iff_get.mp hs) ⟨i, hi⟩ ⟨j, hj⟩ hij
    rw [rowLe_ours_eq] at hle
    simpa using hle
  · intro rows i j hi hj hij
    have hs : (sortRows rows [("ours", true)]).Pairwise
        (fun a b => rowLe [("ours", true)] a b = true) :=
      List.sorted_mergeSort (rowLe_ours_trans true) (rowLe_ours_total true) rows
    have hle := (List.pairwise_iff_get.mp hs) ⟨i, hi⟩ ⟨j, hj⟩ hij
    rw [rowLe_ours_eq] at hle
    simpa using hle

/-- Claim C3 counterexample: with branches `main` and `x` and the invalid
sort spec `bogus`, the run does perform the comparison fetch for `x` before
the configuration error surfaces — `parse_sort` only runs after
`get_branch_comparisons`, so "no comparison fetch is performed under an
invalid sort specification" is false. -/
theorem claim_C3_counterexample :
    parse_sort "bogus" = .error "Unknown sort field: bogus" ∧
    (ListBranches.main env0 "bogus" none none).2
      = .error "Unknown sort field: bogus" ∧
    (ListBranches.main env0 "bogus" none none).1
      = [.fetchPRs, .fetchBranches, .fetchCompare "x"] ∧
    Event.fetchCompare "x" ∈ (ListBranches.main env0 "bogus" none none).1 := by
  refine ⟨rfl, rfl, rfl, ?_⟩
  have h : (ListBranches.main env0 "bogus" none none).1
      = [.fetchPRs, .fetchBranches, .fetchCompare "x"] := rfl
  rw [h]
  simp

/-- Claim C3 as amended: an invalid sort field always surfaces as the
configuration error of the run (never a table), but only after the PR,
branch and per-branch comparison fetches have all been performed. -/
theorem claim_C3_error_after_fetches (env : Env) (sort : String)
    (filter_str : Option String) (since : Option String) (mb : String) (e : String)
    (hmb : find_main_branch env.branchNames = .ok mb)
    (hps : parse_sort sort = .error e) :
    (ListBranches.main env sort filter_str since).2 = .error e ∧
    ∀ b ∈ env.branchNames.filter (· ≠ mb),
      Event.fetchCompare b ∈ (ListBranches.main env sort filter_str since).1 := by
  simp only [ListBranches.main, hmb, hps]
  refine ⟨trivial, ?_⟩
  intro b hb
  simp only [List.mem_append, List.mem_map]
  exact Or.inl (Or.inr ⟨b, hb, rfl⟩)

/-- Witness for C3's amended theorem, at the counterexample environment. -/
theorem claim_C3_witness :
    (ListBranches.main env0 "bogus" none none).2
      = .error "Unknown sort field: bogus" ∧
    ∀ b ∈ env0.branchNames.filter (· ≠ "main"),
      Event.fetchCompare b ∈ (ListBranches.main env0 "bogus" none none).1 :=
  claim_C3_error_after_fetches env0 "bogus" none none "main"
    "Unknown sort field: bogus" rfl rfl

/-- Claim C4: the main branch is the first of `main`/`master` found, it is
excluded from the candidate set and never appears among the output row
branches; and when neither `main` nor `master` exists, the run fails with
the fatal `no main branch found` error. -/
theorem claim_C4_main_branch_excluded :
    (∀ (env : Env) (sort : String) (filter_str since : Option String)
        (mb : String) (out : Output),
        find_main_branch env.branchNames = .ok mb →
        (ListBranches.main env sort filter_str since).2 = .ok out →
        mb ∉ out.rows.map Row.branch) ∧
    (∀ (env : Env) (sort : String) (filter_str since : Option String),
        "main" ∉ env.branchNames → "master" ∉ env.branchNames →
        (ListBranches.main env sort filter_str since).2
          = .error "no main branch found") ∧
    (∀ names : List String, "main" ∈ names → find_main_branch names = .ok "main") ∧
    (∀ names : List String, "main" ∉ names → "master" ∈ names →
        find_main_branch names = .ok "master") := by
  refine ⟨?_, ?_, ?_, ?_⟩
  · intro env sort filter_str since mb out hmb hout hcontra
    rw [List.mem_map] at hcontra
    obtain ⟨r, hr, hbr⟩ := hcontra
    simp only [ListBranches.main, hmb] at hout
    rcases hps : parse_sort sort with e | spec <;> rw [hps] at hout
    · cases hout
    · simp only [Except.ok.injEq] at hout
      subst hout
      have hr2 := (mem_sortRows _ _ _).mp hr
      have h3 := build_rows_branch_mem _ _ _ _ _ hr2
      rw [get_branch_comparisons_keys] at h3
      rw [hbr] at h3
      have := List.of_mem_filter h3
      simp at this
  · intro env sort filter_str since h1 h2
    simp only [ListBranches.main, find_main_branch, h1, h2]
    simp [h1, h2]
  · intro names h
    simp [find_main_branch, h]
  · intro names h1 h2
    simp [find_main_branch, h1, h2]

/-- Witness for C4: a run over branch list `["main"]` outputs no row naming
`main`; `master` is found when `main` is absent; a `main`-less,
`master`-less branch list is a fatal error. -/
theorem claim_C4_witness :
    "main" ∉ outEmpty.rows.map Row.branch ∧
    find_main_branch ["x", "master"] = .ok "master" ∧
    (ListBranches.main env2 "branch" none none).2 = .error "no main branch found" := by
  refine ⟨?_, ?_, ?_⟩
  · refine claim_C4_main_branch_excluded.1 env1 "branch" none none "main" outEmpty rfl ?_
    have h := main_empty_candidates env1 rfl "branch" [("branch", false)] rfl none none
    rw [h]
    rfl
  · exact claim_C4_main_branch_excluded.2.2.2 ["x", "master"] (by decide) (by decide)
  · exact claim_C4_main_branch_excluded.2.1 env2 "branch" none none (by decide) (by decide)

/-- Claim C10: when the repository's only branch is the main branch, every
pipeline stage is total and succeeds: the comparison and ancestry mappings
are empty, the row list is empty, and the run returns a table with zero
rows instead of an error. -/
theorem claim_C10_empty_candidates_total (env : Env)
    (h : env.branchNames = ["main"]) (sort : String) (spec : List (String × Bool))
    (hps : parse_sort sort = .ok spec) (filter_str since : Option String) :
    get_branch_comparisons env [] = [] ∧
    check_ancestry env [] = [] ∧
    build_rows [] env.prStatuses none filter_str = [] ∧
    ListBranches.main env sort filter_str since =
      ([Event.fetchPRs, Event.fetchBranches],
       .ok { rows := []
             header := ["Branch", "PR", "Ahead", "Behind"]
               ++ (if since.isSome then ["Ours"] else [])
             cells := [] }) :=
  ⟨rfl, rfl, rfl, main_empty_candidates env h sort spec hps filter_str since⟩

/-- Witness for C10: the concrete single-branch environment with the default
sort runs to an empty table. -/
theorem claim_C10_witness :
    ListBranches.main env1 "branch" none none =
      ([Event.fetchPRs, Event.fetchBranches],
       .ok { rows := []
             header := ["Branch", "PR", "Ahead", "Behind"] ++ (if (none : Option String).isSome then ["Ours"] else [])
             cells := [] }) :=
  (claim_C10_empty_candidates_total env1 rfl "branch" [("branch", false)] rfl
    none none).2.2.2

/-- Claim C5: the comparison fetch returns one entry per input branch, in
order (its key list is exactly the input list), and any per-branch failure —
a raised `gh` error or a malformed response — yields the `("?", "?")`
placeholder for that branch instead of propagating, while successes yield
the parsed counts. -/
theorem claim_C5_comparisons_total_with_placeholders :
    (∀ (env : Env) (names : List String),
        (get_branch_comparisons env names).map (fun p => p.1) = names) ∧
    (∀ (env : Env) (b : String), env.compareRaw b = none →
        get_comparison env b = (b, .unknown, .unknown)) ∧
    (∀ (env : Env) (b s : String), env.compareRaw b = some s →
        parse_compare s = none →
        get_comparison env b = (b, .unknown, .unknown)) ∧
    (∀ (env : Env) (b s : String) (a bh : Nat), env.compareRaw b = some s →
        parse_compare s = some (a, bh) →
        get_comparison env b = (b, .known a, .known bh)) := by
  refine ⟨get_branch_comparisons_keys, ?_, ?_, ?_⟩
  · intro env b h
    simp [get_comparison, h]
  · intro env b s h hp
    simp [get_comparison, h, hp]
  · intro env b s a bh h hp
    simp [get_comparison, h, hp]

/-- Witness for C5: one key per branch; a raised fetch, a malformed
response and a well-formed response at concrete environments. -/
theorem claim_C5_witness :
    (get_branch_comparisons env0 ["x"]).map (fun p => p.1) = ["x"] ∧
    get_comparison env2 "x" = ("x", .unknown, .unknown) ∧
    get_comparison env3 "x" = ("x", .unknown, .unknown) ∧
    get_comparison env0 "x" = ("x", .known 0, .known 0) :=
  ⟨claim_C5_comparisons_total_with_placeholders.1 env0 ["x"],
   claim_C5_comparisons_total_with_placeholders.2.1 env2 "x" rfl,
   claim_C5_comparisons_total_with_placeholders.2.2.1 env3 "x" "not a pair" rfl rfl,
   claim_C5_comparisons_total_with_placeholders.2.2.2 env0 "x" "0 0" 0 0 rfl rfl⟩

/-- Claim C6: the ancestry check is true exactly for the statuses `ahead`
and `identical`, false for any other status and for a raised error; and
without `--since` every row's ours field is `None` and the printed table has
no Ours column (four columns only). -/
theorem claim_C6_ancestry_and_ours_omitted :
    (∀ (env : Env) (b s : String), env.ancestryRaw b = some s →
        ((is_ancestor env b).2 = true ↔ (s = "ahead" ∨ s = "identical"))) ∧
    (∀ (env : Env) (b : String), env.ancestryRaw b = none →
        (is_ancestor env b).2 = false) ∧
    (∀ (env : Env) (sort : String) (filter_str : Option String) (out : Output),
        (ListBranches.main env sort filter_str none).2 = .ok out →
        (∀ r ∈ out.rows, r.ours = none) ∧
        out.header = ["Branch", "PR", "Ahead", "Behind"] ∧
        ∀ c ∈ out.cells, c.length = 4) := by
  refine ⟨?_, ?_, ?_⟩
  · intro env b s h
    simp [is_ancestor, h]
  · intro env b h
    simp [is_ancestor, h]
  · intro env sort filter_str out hout
    rcases hmb : find_main_branch env.branchNames with e | mb <;>
      simp only [ListBranches.main, hmb] at hout
    · cases hout
    rcases hps : parse_sort sort with e | spec <;> rw [hps] at hout
    · cases hout
    simp only [Option.isSome_none, Bool.false_eq_true, if_false, reduceIte,
      Except.ok.injEq] at hout
    subst hout
    refine ⟨?_, ?_, ?_⟩
    · intro r hr
      have hr2 := (mem_sortRows _ _ _).mp hr
      exact build_rows_ours_none _ _ _ _ hr2
    · simp [print_table]
    · intro c hc
      simp only [print_table, List.mem_map] at hc
      obtain ⟨r, _, heq⟩ := hc
      rw [← heq]
      simp

/-- Witness for C6: an `ahead` status, a raised ancestry fetch, and a
`--since`-less run, at concrete environments. -/
theorem claim_C6_witness :
    ((is_ancestor env4 "x").2 = true ↔ ("ahead" = "ahead" ∨ "ahead" = "identical")) ∧
    (is_ancestor env0 "x").2 = false ∧
    ((∀ r ∈ outEmpty.rows, r.ours = none) ∧
      outEmpty.header = ["Branch", "PR", "Ahead", "Behind"] ∧
      ∀ c ∈ outEmpty.cells, c.length = 4) := by
  refine ⟨claim_C6_ancestry_and_ours_omitted.1 env4 "x" "ahead" rfl,
    claim_C6_ancestry_and_ours_omitted.2.1 env0 "x" rfl,
    claim_C6_ancestry_and_ours_omitted.2.2 env1 "branch" none outEmpty ?_⟩
  have h := main_empty_candidates env1 rfl "branch" [("branch", false)] rfl none none
  rw [h]
  rfl

/-- Claim C7: with a non-empty filter string, the built row list is exactly
the unfiltered row list restricted to branches whose name contains the
filter as a (case-sensitive) substring, in input order; with no filter,
every branch yields a row, in input order. -/
theorem claim_C7_filter_substring (branches : List (String × AB × AB))
    (prs : List (String × String)) (anc : Option (List (String × Bool)))
    (f : String) (hf : f ≠ "") :
    build_rows branches prs anc (some f)
      = (build_rows branches prs anc none).filter (fun r => pyIn f r.branch) ∧
    (build_rows branches prs anc none).map Row.branch
      = branches.map (fun p => p.1) := by
  constructor
  · simp only [build_rows, List.filter_map]
    congr 1
    rw [List.filter_filter]
    apply List.filter_congr
    intro nab _
    simp [keepName, Function.comp, mkRow, hf]
  · simp only [build_rows, List.map_map]
    have h1 : ∀ nab : String × AB × AB, keepName none nab.1 = true := fun _ => rfl
    rw [List.filter_congr (fun a _ => h1 a)]
    simp [List.filter_true, mkRow, Function.comp_def]

/-- Witness for C7: the spec's example — branches `feature/x`, `feature/y`,
`hotfix` with filter `feature`. -/
theorem claim_C7_witness :
    build_rows demoBranches [] none (some "feature")
      = (build_rows demoBranches [] none none).filter
          (fun r => pyIn "feature" r.branch) ∧
    (build_rows demoBranches [] none none).map Row.branch
      = demoBranches.map (fun p => p.1) :=
  claim_C7_filter_substring demoBranches [] none "feature" (by decide)

/-- Claim C9: each comma-separated token of a sort specification is stripped
of surrounding whitespace before the descending prefix and field name are
examined, so `"branch, -behind"` and `"branch,-behind"` parse to the same
(field, descending) list. -/
theorem claim_C9_tokens_stripped :
    (∀ s : String,
      parse_sort s = parse_fields_list ((pySplitComma s).map pyStrip)) ∧
    parse_sort "branch, -behind" = parse_sort "branch,-behind" ∧
    parse_sort "branch, -behind" = .ok [("branch", false), ("behind", true)] :=
  ⟨fun s => parse_sort_list_strip (pySplitComma s), rfl, rfl⟩

/-- Witness for C8: with a `some true` row and a `none` row sorted ascending
on `ours`, the first output rank is at most the second. -/
theorem claim_C8_witness :
    oursRank ((sortRows [oRowT, oRowN] [("ours", false)]).get
        ⟨0, by simp [sortRows]⟩).ours ≤
      oursRank ((sortRows [oRowT, oRowN] [("ours", false)]).get
        ⟨1, by simp [sortRows]⟩).ours :=
  claim_C8_ours_rank_order.1 [oRowT, oRowN] 0 1 (by simp [sortRows]) (by simp [sortRows])
    (by omega)

end ListBranches
